import Mathlib

/-!
Shallow embedding of the versioned, hierarchical entity repository of the
simtapp project (`src/plog`), together with proofs checking its
natural-language specification against the controllers.

The database session is modelled as an explicit list of rows; each
controller operation is a state-passing function returning the post-state
of the session together with either a result or the message of the
`ValueError` the Python code raises.  Raising before any mutation leaves
the state unchanged, exactly as an uncommitted SQLAlchemy session does.

Dates and timestamps are abstracted as natural numbers; SQL `NULL` and
Python `None` are `Option.none`.
-/

deriving instance DecidableEq for Except

namespace Plog

/-- Row of the `projects` table / in-memory `Project` ORM object, from
`src/plog/models/project.py`.  `id` is the autoincrement surrogate key,
`project_id` the logical identifier, `deleted` the soft-delete flag
(0 = live, 1 = deleted). -/
structure Project where
  id : Nat
  project_id : Nat
  version : Nat
  title : String
  description : String
  organization : String
  project_manager : String
  project_sponsor : String
  initiation_date : Option Nat
  closure_date : Option Nat
  parent_id : Option Nat
  deleted : Nat
deriving Repr, DecidableEq

/-- The `projects` table: the rows of the session, in insertion order. -/
abbrev PDb := List Project

/-- The mapped columns of the `Project` model, in declaration order
(`src/plog/models/project.py`).  The model declares no timestamp columns. -/
def projectColumns : List String :=
  ["id", "project_id", "version", "title", "description", "organization",
   "project_manager", "project_sponsor", "initiation_date", "closure_date",
   "parent_id", "deleted"]

/-- Next value of the autoincrement surrogate key. -/
def nextId (db : PDb) : Nat :=
  (db.foldl (fun m r => max m r.id) 0) + 1

/-- Embedding of `session.query(Project).filter(project_id == pid, deleted == 0).all()`. -/
def liveById (db : PDb) (pid : Nat) : List Project :=
  db.filter fun r => decide (r.project_id = pid ∧ r.deleted = 0)

/-- Embedding of `.order_by(Project.version.desc()).first()`: a row of maximal
`version` among the given rows (the first such row), or `none`. -/
def maxVersionFirst (rows : List Project) : Option Project :=
  match rows with
  | [] => none
  | r :: rs => some (rs.foldl (fun best x => if best.version < x.version then x else best) r)

/-- Embedding of `uuid.uuid4().int >> 96` rejection sampling from
`ProjectController.add_project` (project_controller.py:36-40): take the
first candidate of the stream that matches no existing row (deleted rows
included, since the query does not filter on `deleted`).  The random
stream is an explicit parameter; `none` models the loop never finding a
free value within the supplied stream. -/
def genProjectId (cands : List Nat) (db : PDb) : Option Nat :=
  match cands with
  | [] => none
  | c :: cs =>
    if (db.filter fun r => decide (r.project_id = c)) = [] then some c
    else genProjectId cs db

/-- Embedding of `ProjectController.add_project` (project_controller.py:21-54).
Allocates a fresh `project_id`, inserts one row with `version = 1`,
`deleted = 0` and the given attributes, and returns it.  There is no
parent validation of any kind. -/
def add_project (cands : List Nat) (db : PDb) (title : String)
    (description organization project_manager project_sponsor : String)
    (initiation_date closure_date : Option Nat) (parent_id : Option Nat) :
    PDb × Except String Project :=
  match genProjectId cands db with
  | none => (db, .error "identifier stream exhausted")
  | some pid =>
    let p : Project :=
      { id := nextId db, project_id := pid, version := 1, title := title,
        description := description, organization := organization,
        project_manager := project_manager, project_sponsor := project_sponsor,
        initiation_date := initiation_date, closure_date := closure_date,
        parent_id := parent_id, deleted := 0 }
    (db ++ [p], .ok p)

/-- Replace the row with surrogate key `i` by `p`. -/
def replaceRow (db : PDb) (i : Nat) (p : Project) : PDb :=
  db.map fun r => if r.id = i then p else r

/-- Embedding of `ProjectController.update_project` (project_controller.py:56-98).
Loads the live row of maximal version, raises `ValueError` if absent,
overwrites in place every field whose argument is not `None`, increments
`version`, and commits.  No new row is inserted. -/
def update_project (db : PDb) (project_id : Nat) (title : Option String)
    (description organization project_manager project_sponsor : Option String)
    (initiation_date closure_date : Option Nat) (parent_id : Option Nat) :
    PDb × Except String Project :=
  match maxVersionFirst (liveById db project_id) with
  | none => (db, .error "Project not found.")
  | some p =>
    let p' : Project :=
      { p with
        title := title.getD p.title,
        description := description.getD p.description,
        organization := organization.getD p.organization,
        project_manager := project_manager.getD p.project_manager,
        project_sponsor := project_sponsor.getD p.project_sponsor,
        initiation_date := initiation_date.orElse fun _ => p.initiation_date,
        closure_date := closure_date.orElse fun _ => p.closure_date,
        parent_id := parent_id.orElse fun _ => p.parent_id,
        version := p.version + 1 }
    (replaceRow db p.id p', .ok p')

/-- Embedding of `project.deleted = 1` on the row with surrogate key `i`. -/
def setDeleted (db : PDb) (i : Nat) : PDb :=
  db.map fun r => if r.id = i then { r with deleted := 1 } else r

/-- Embedding of `mark_children_as_deleted` (project_controller.py:122-129): query the
live children of the given `project_id`, then for each one set its
`deleted` flag, record it, and recurse into the live children of its own
`project_id` (the child query of the recursive call runs on the session
state after the marking, as in Python).  The recursion depth is bounded
by `fuel`; exhausting it models Python's `RecursionError`. -/
def markChildren : Nat → PDb → Nat → Option (PDb × List Project)
  | 0, _, _ => none
  | fuel + 1, db, pid =>
    let children := db.filter fun r => decide (r.parent_id = some pid ∧ r.deleted = 0)
    children.foldlM
      (fun st c => do
        let db1 := setDeleted st.1 c.id
        let (db2, ds) ← markChildren fuel db1 c.project_id
        pure (db2, st.2 ++ [{ c with deleted := 1 }] ++ ds))
      (db, [])

/-- Embedding of `ProjectController.delete_project` (project_controller.py:100-131).
Marks every live row with the given `project_id` as deleted, then
recursively marks all live children (rows whose `parent_id` equals the
`project_id` of a marked row); raises `ValueError` when no live row
matches.  Returns all rows marked by this call. -/
def delete_project (db : PDb) (project_id : Nat) :
    PDb × Except String (List Project) :=
  let projects := db.filter fun r => decide (r.project_id = project_id ∧ r.deleted = 0)
  if projects = [] then (db, .error "Project not found.")
  else
    let db1 := projects.foldl (fun d r => setDeleted d r.id) db
    let roots := projects.map fun r => { r with deleted := 1 }
    match markChildren (db1.length + 1) db1 project_id with
    | none => (db, .error "maximum recursion depth exceeded")
    | some (db2, ds) => (db2, .ok (roots ++ ds))

/-- Maximal `version` among the given rows with the given `project_id`
(the `func.max` group of the subquery in `get_projects`). -/
def maxVersionOf (rows : List Project) (pid : Nat) : Nat :=
  (rows.filter fun r => decide (r.project_id = pid)).foldl (fun m r => max m r.version) 0

/-- Embedding of `ProjectController.get_projects` (project_controller.py:133-154):
join of the live rows with the per-`project_id` maximal version of the
live rows — exactly the live rows whose version attains that maximum. -/
def get_projects (db : PDb) : List Project :=
  let live := db.filter fun r => decide (r.deleted = 0)
  live.filter fun r => decide (r.version = maxVersionOf live r.project_id)

/-- Embedding of `ProjectController.get_project` (project_controller.py:156-172):
latest live row with the given id, `ValueError` if none. -/
def get_project (db : PDb) (project_id : Nat) : Except String Project :=
  match maxVersionFirst (liveById db project_id) with
  | none => .error "Project not found."
  | some p => .ok p

/-- The fields of a parent `Milestone` object that `MilestoneController`
reads: its logical identifier (written to the child's `parent_id` foreign
key, which references `milestones.milestone_id`) and its `project`
relationship (the surrogate key of the owning project). -/
structure ParentRef where
  milestone_id : Nat
  project : Option Nat
deriving Repr, DecidableEq

/-- Row of the `milestones` table / in-memory `Milestone` ORM object, from
`src/plog/models/milestone.py`.  `project` and `parent` model the ORM
relationship attributes; `project_id` and `parent_id` the mapped foreign
key columns.  `created` and `last_modified` are NOT mapped columns (see
`milestoneColumns`): they are plain instance attributes that
`MilestoneController` sets on the object, `none` while unset. -/
structure Milestone where
  id : Nat
  milestone_id : Nat
  version : Nat
  title : String
  description : String
  initial_baseline_date : Option Nat
  latest_baseline_date : Option Nat
  acceptance_criteria : String
  project_id : Option Nat
  parent_id : Option Nat
  deleted : Nat
  project : Option Nat
  parent : Option ParentRef
  created : Option Nat
  last_modified : Option Nat
deriving Repr, DecidableEq

/-- The mapped columns of the `Milestone` model, in declaration order
(`src/plog/models/milestone.py`).  As for `Project`, no timestamp columns
are declared. -/
def milestoneColumns : List String :=
  ["id", "milestone_id", "version", "title", "description",
   "initial_baseline_date", "latest_baseline_date", "acceptance_criteria",
   "project_id", "parent_id", "deleted"]

/-- Milestone session state: the `milestones` table rows, plus the
history snapshots.

Modelled from the spec: the automatic history-table snapshotting
(`sqlalchemy_history.make_versioned` in `src/plog/common.py`, read
through `milestone.versions` in `MilestoneController.get_history`) is
library code not under `src/`; per spec §3/§4.3 every committed mutation
appends an immutable snapshot of the entity at sequence number one above
its previous snapshot, and never rewrites earlier snapshots.  `versions`
stores, in commit order, pairs of the per-entity sequence number and the
snapshot. -/
structure MState where
  rows : List Milestone
  versions : List (Nat × Milestone)
deriving Repr, DecidableEq

/-- Modelled from the spec: sequence number for the next snapshot of the
entity with surrogate key `i` (one above the number of its existing
snapshots). -/
def nextSeq (st : MState) (i : Nat) : Nat :=
  (st.versions.filter fun v => decide (v.2.id = i)).length + 1

/-- Modelled from the spec: commit-time snapshotting — append the state
of the mutated entity to the history. -/
def appendVersion (st : MState) (m : Milestone) : MState :=
  { st with versions := st.versions ++ [(nextSeq st m.id, m)] }

namespace MilestoneController

/-- Embedding of `MilestoneController.add` (milestone_controller.py:22-44).  If the
object has a parent, its `project` is overwritten by the parent's
`project` (silent adoption); a missing project raises `ValueError`; both
timestamps are set to `now`, and the row is inserted (foreign keys
resolved from the relationship attributes, `milestone_id` left exactly as
supplied on the object — the controller allocates nothing).  The commit
enforces the table's `uq_milestone_milestone_id_version` constraint
(models/milestone.py:21): inserting a row whose `(milestone_id, version)`
pair already exists raises `IntegrityError`, with nothing committed. -/
def add (now : Nat) (st : MState) (m : Milestone) :
    MState × Except String Milestone :=
  let m1 := match m.parent with
    | some pref => { m with project := pref.project }
    | none => m
  if m1.project = none then (st, .error "Milestone must be linked to project.")
  else
    let m2 := { m1 with created := some now, last_modified := some now }
    let row := { m2 with
      id := (st.rows.foldl (fun a r => max a r.id) 0) + 1,
      project_id := m2.project,
      parent_id := m2.parent.map fun p => p.milestone_id }
    if (st.rows.filter fun r =>
        decide (r.milestone_id = row.milestone_id ∧ r.version = row.version)) = []
    then (appendVersion { st with rows := st.rows ++ [row] } row, .ok row)
    else (st, .error "IntegrityError")

/-- Embedding of `MilestoneController.update` (milestone_controller.py:46-68).
Requires a row with the object's surrogate key; re-runs the parent
project adoption and the project-linkage check; advances `last_modified`
(leaving `created` untouched) and commits the object's current field
values over its row. -/
def update (now : Nat) (st : MState) (m : Milestone) :
    MState × Except String Milestone :=
  if (st.rows.filter fun r => decide (r.id = m.id)) = [] then
    (st, .error "Milestone not found.")
  else
    let m1 := match m.parent with
      | some pref => { m with project := pref.project }
      | none => m
    if m1.project = none then (st, .error "Milestone must be linked to project.")
    else
      let m2 := { m1 with last_modified := some now }
      let row := { m2 with
        project_id := m2.project,
        parent_id := m2.parent.map fun p => p.milestone_id }
      (appendVersion { st with rows := st.rows.map fun r => if r.id = m.id then row else r } row,
       .ok row)

/-- The `children` backref of the `parent` relationship
(models/milestone.py:44): the rows whose `parent_id` equals this
object's `milestone_id`.  The relationship does not filter on `deleted`. -/
def childrenOf (rows : List Milestone) (m : Milestone) : List Milestone :=
  rows.filter fun r => decide (r.parent_id = some m.milestone_id)

/-- Embedding of `collect_children` (milestone_controller.py:79-85): the children of
the node followed by, for each child in turn, its recursively collected
descendants.  No visited set is kept; `fuel` bounds the recursion depth,
`none` modelling Python's `RecursionError` on exhaustion. -/
def collect_children : Nat → List Milestone → Milestone → Option (List Milestone)
  | 0, _, _ => none
  | fuel + 1, rows, m => do
    let cs := childrenOf rows m
    let subs ← cs.foldlM
      (fun acc c => do
        let s ← collect_children fuel rows c
        pure (acc ++ s)) []
    pure (cs ++ subs)

/-- SQLAlchemy's flush-time dissociation of a deleted milestone's direct
children: the `children` backref (models/milestone.py:44) carries no
delete cascade, so deleting the parent updates each loaded child's
`parent_id` foreign key to NULL rather than deleting the child. -/
def dissociate (m : Milestone) (r : Milestone) : Milestone :=
  if r.parent_id = some m.milestone_id then { r with parent_id := none } else r

/-- Embedding of `MilestoneController.delete` (milestone_controller.py:70-97).
Requires a row with the object's surrogate key (`ValueError` otherwise,
session unchanged); returns the object itself followed by
`collect_children`, and at commit removes the object's row from the
session while dissociating its direct children — their `parent_id` is set
to NULL, both on the rows and on the collected objects the call returns
(the history snapshots are untouched). -/
def delete (st : MState) (m : Milestone) :
    MState × Except String (List Milestone) :=
  if (st.rows.filter fun r => decide (r.id = m.id)) = [] then
    (st, .error "Milestone not found.")
  else
    match collect_children (st.rows.length + 1) st.rows m with
    | none => (st, .error "maximum recursion depth exceeded")
    | some cs =>
      ({ st with rows := (st.rows.filter fun r => decide (¬ r.id = m.id)).map (dissociate m) },
       .ok (m :: cs.map (dissociate m)))

/-- Embedding of `MilestoneController.get_all` (milestone_controller.py:99-109): all
rows, optionally filtered by the surrogate key of the owning project. -/
def get_all (st : MState) (project : Option Nat) : List Milestone :=
  match project with
  | none => st.rows
  | some pid => st.rows.filter fun r => decide (r.project_id = some pid)

/-- Embedding of `MilestoneController.get_by_id` (milestone_controller.py:111-122). -/
def get_by_id (st : MState) (i : Nat) : Except String Milestone :=
  match st.rows.filter fun r => decide (r.id = i) with
  | [] => .error "Milestone not found."
  | m :: _ => .ok m

/-- Embedding of `MilestoneController.get_history` (milestone_controller.py:124-131):
`milestone.versions[::-1]` — the entity's snapshots, newest first. -/
def get_history (st : MState) (m : Milestone) : List (Nat × Milestone) :=
  (st.versions.filter fun v => decide (v.2.id = m.id)).reverse

end MilestoneController

end Plog

namespace Plog

/-! ## Concrete fixtures -/

/-- Live project row with arbitrary free-text attributes. -/
def projRow (i pid : Nat) (par : Option Nat) (t d : String) : Project :=
  { id := i, project_id := pid, version := 1, title := t, description := d,
    organization := "", project_manager := "", project_sponsor := "",
    initiation_date := none, closure_date := none, parent_id := par, deleted := 0 }

/-- Live project tree of depth 3 — parent (logical id 10) → child (20) →
grandchild (30) — plus one unrelated live project (40).  Titles and
descriptions are arbitrary, in particular possibly shared between the
unrelated project and members of the subtree. -/
def projectTree (t1 t2 t3 t4 d1 d2 d3 d4 : String) : PDb :=
  [projRow 1 10 none t1 d1, projRow 2 20 (some 10) t2 d2,
   projRow 3 30 (some 20) t3 d3, projRow 4 40 none t4 d4]

/-- Live milestone row of project 1 with arbitrary title. -/
def milRow (i mid : Nat) (par : Option Nat) (t : String) : Milestone :=
  { id := i, milestone_id := mid, version := 1, title := t, description := "",
    initial_baseline_date := none, latest_baseline_date := none,
    acceptance_criteria := "", project_id := some 1, parent_id := par,
    deleted := 0, project := some 1, parent := none, created := none,
    last_modified := none }

/-- Live milestone tree of depth 3 — parent (milestone_id 10) → child
(20) → grandchild (30) — plus one unrelated live milestone (40), with
arbitrary titles. -/
def milestoneTree (t1 t2 t3 t4 : String) : MState :=
  { rows := [milRow 1 10 none t1, milRow 2 20 (some 10) t2,
             milRow 3 30 (some 20) t3, milRow 4 40 none t4],
    versions := [] }

/-! ## C1 — cascading delete returns exactly the subtree -/

/-- C1: on a live tree of depth 3 (parent → child → grandchild) plus one
unrelated live entity of the same kind, `delete(parent)` returns exactly
the entities parent, child, grandchild — no entity outside the subtree,
even when the unrelated entity shares a title or description — and the
unrelated entity is still retrievable via `get` afterwards; for
`ProjectController.delete_project` and `MilestoneController.delete`
alike.  On the milestone side the deleted root's direct child comes back
(and is stored) with its `parent_id` nulled by the flush-time
dissociation. -/
theorem c1_cascading_delete_exact_subtree (t1 t2 t3 t4 d1 d2 d3 d4 : String) :
    (delete_project (projectTree t1 t2 t3 t4 d1 d2 d3 d4) 10).2 =
      .ok [{ projRow 1 10 none t1 d1 with deleted := 1 },
           { projRow 2 20 (some 10) t2 d2 with deleted := 1 },
           { projRow 3 30 (some 20) t3 d3 with deleted := 1 }] ∧
    get_project (delete_project (projectTree t1 t2 t3 t4 d1 d2 d3 d4) 10).1 40 =
      .ok (projRow 4 40 none t4 d4) ∧
    MilestoneController.delete (milestoneTree t1 t2 t3 t4) (milRow 1 10 none t1) =
      ({ rows := [milRow 2 20 none t2, milRow 3 30 (some 20) t3,
                  milRow 4 40 none t4], versions := [] },
       .ok [milRow 1 10 none t1, milRow 2 20 none t2, milRow 3 30 (some 20) t3]) ∧
    MilestoneController.get_by_id
      (MilestoneController.delete (milestoneTree t1 t2 t3 t4) (milRow 1 10 none t1)).1 4 =
      .ok (milRow 4 40 none t4) :=
  ⟨rfl, rfl, rfl, rfl⟩

/-! ## C3 — the parent's project silently wins over the child's -/

/-- C3: whenever the in-memory milestone handed to `add` or `update` has
its `parent` relationship set, the resulting milestone's project is
forced to the parent's project — even when the caller supplied a
different project on the child — and the operation succeeds rather than
erroring.  (For `add`, the milestone being inserted is new, i.e. its
`(milestone_id, version)` pair is not yet in the table — the schema's
unique-constraint precondition, as in C6's Nodup hypothesis.) -/
theorem c3_parent_project_adoption :
    (∀ (now : Nat) (st : MState) (m : Milestone) (pref : ParentRef) (P : Nat),
      m.parent = some pref → pref.project = some P →
      (st.rows.filter fun r =>
        decide (r.milestone_id = m.milestone_id ∧ r.version = m.version)) = [] →
      ∃ r, (MilestoneController.add now st m).2 = .ok r ∧
        r.project = some P ∧ r.project_id = some P ∧
        r.parent_id = some pref.milestone_id) ∧
    (∀ (now : Nat) (st : MState) (m : Milestone) (pref : ParentRef) (P : Nat),
      m.parent = some pref → pref.project = some P →
      (st.rows.filter fun r => decide (r.id = m.id)) ≠ [] →
      ∃ r, (MilestoneController.update now st m).2 = .ok r ∧
        r.project = some P ∧ r.project_id = some P ∧
        r.parent_id = some pref.milestone_id) := by
  constructor
  · intro now st m pref P hpar hproj hclean
    simp only [List.filter_eq_nil_iff, decide_eq_true_eq, not_and] at hclean
    simp [MilestoneController.add, hpar, hproj, if_pos hclean]
  · intro now st m pref P hpar hproj hrow
    simp [MilestoneController.update, hpar, hproj, hrow]

/-- Witness for C3 at a concrete input: a parent of project 1, a child
explicitly supplied with project 2; both `add` and `update` force the
child's project to 1. -/
theorem c3_witness :
    (∃ r, (MilestoneController.add 5 (milestoneTree ("a") ("b") ("c") ("d"))
        { (milRow 9 90 none ("x")) with
          project := some 2,
          parent := some { milestone_id := 10, project := some 1 } }).2 = .ok r ∧
      r.project = some 1 ∧ r.project_id = some 1 ∧ r.parent_id = some 10) ∧
    (∃ r, (MilestoneController.update 5 (milestoneTree ("a") ("b") ("c") ("d"))
        { (milRow 2 20 (some 10) ("b")) with
          project := some 2,
          parent := some { milestone_id := 10, project := some 1 } }).2 = .ok r ∧
      r.project = some 1 ∧ r.project_id = some 1 ∧ r.parent_id = some 10) :=
  ⟨c3_parent_project_adoption.1 5 (milestoneTree ("a") ("b") ("c") ("d"))
      { (milRow 9 90 none ("x")) with
        project := some 2,
        parent := some { milestone_id := 10, project := some 1 } }
      { milestone_id := 10, project := some 1 } 1 rfl rfl (by decide),
   c3_parent_project_adoption.2 5 (milestoneTree ("a") ("b") ("c") ("d"))
      { (milRow 2 20 (some 10) ("b")) with
        project := some 2,
        parent := some { milestone_id := 10, project := some 1 } }
      { milestone_id := 10, project := some 1 } 1 rfl rfl (by decide)⟩

/-! ## Soft-delete marking machinery -/

/-- Relation between a row and the same row after a possible
`deleted = 1` assignment. -/
def MarkStep (r r' : Project) : Prop :=
  r' = r ∨ r' = { r with deleted := 1 }

/-- Session states related by a sequence of `deleted = 1` assignments:
same rows, in the same order, except that some `deleted` flags were set. -/
def Marked (db db' : PDb) : Prop :=
  List.Forall₂ MarkStep db db'

lemma markStep_refl (r : Project) : MarkStep r r := Or.inl rfl

lemma markStep_trans {a b c : Project} (h1 : MarkStep a b) (h2 : MarkStep b c) :
    MarkStep a c := by
  rcases h1 with h1 | h1 <;> rcases h2 with h2 | h2 <;> subst h1 <;> subst h2
  · exact Or.inl rfl
  · exact Or.inr rfl
  · exact Or.inr rfl
  · exact Or.inr rfl

lemma marked_refl (db : PDb) : Marked db db :=
  List.forall₂_same.mpr fun r _ => markStep_refl r

lemma marked_trans {a b c : PDb} (h1 : Marked a b) (h2 : Marked b c) :
    Marked a c := by
  induction h1 generalizing c with
  | nil => cases h2; exact List.Forall₂.nil
  | cons hr _ ih =>
    cases h2 with
    | cons hr2 ht2 => exact List.Forall₂.cons (markStep_trans hr hr2) (ih ht2)

lemma setDeleted_marked (db : PDb) (i : Nat) : Marked db (setDeleted db i) := by
  induction db with
  | nil => exact List.Forall₂.nil
  | cons r rest ih =>
    simp only [setDeleted, List.map] at ih ⊢
    refine List.Forall₂.cons ?_ ih
    by_cases h : r.id = i
    · simp only [if_pos h]; exact Or.inr rfl
    · simp only [if_neg h]; exact Or.inl rfl

lemma marked_mem_right {db db' : PDb} (h : Marked db db') :
    ∀ r' ∈ db', ∃ r ∈ db, MarkStep r r' := by
  induction h with
  | nil => intro r' hm; cases hm
  | cons hr _ ih =>
    intro r' hm
    rcases List.mem_cons.mp hm with rfl | hm'
    · exact ⟨_, List.mem_cons_self _ _, hr⟩
    · obtain ⟨r, hrm, hstep⟩ := ih r' hm'
      exact ⟨r, List.mem_cons_of_mem _ hrm, hstep⟩

/-- Attributes of a snapshot other than the `deleted` flag. -/
def snapKey (r : Project) : Nat × Nat × Nat × String × String :=
  (r.id, r.project_id, r.version, r.title, r.description)

lemma markStep_snapKey {r r' : Project} (h : MarkStep r r') :
    snapKey r' = snapKey r := by
  rcases h with rfl | rfl <;> rfl

lemma marked_snapKey {db db' : PDb} (h : Marked db db') :
    db'.map snapKey = db.map snapKey := by
  induction h with
  | nil => rfl
  | cons hr _ ih => simp only [List.map, ih, markStep_snapKey hr]

/-- No live row carries the given logical identifier. -/
def NoLive (pid : Nat) (db : PDb) : Prop :=
  ∀ r ∈ db, r.project_id = pid → r.deleted ≠ 0

lemma noLive_marked {pid : Nat} {db db' : PDb} (h : NoLive pid db)
    (hm : Marked db db') : NoLive pid db' := by
  intro r' hr' hpid
  obtain ⟨r, hrm, hstep⟩ := marked_mem_right hm r' hr'
  rcases hstep with h1 | h1
  · rw [h1] at hpid ⊢
    exact h r hrm hpid
  · rw [h1]
    simp

lemma foldl_setDeleted_marked (ps : List Project) (db : PDb) :
    Marked db (ps.foldl (fun d r => setDeleted d r.id) db) := by
  induction ps generalizing db with
  | nil => exact marked_refl db
  | cons p ps ih =>
    exact marked_trans (setDeleted_marked db p.id) (ih (setDeleted db p.id))

lemma foldl_setDeleted_eq (ps : List Project) (db : PDb) :
    ps.foldl (fun d r => setDeleted d r.id) db =
      db.map fun r =>
        if r.id ∈ ps.map (fun q => q.id) then { r with deleted := 1 } else r := by
  induction ps generalizing db with
  | nil => simp
  | cons p ps ih =>
    simp only [List.foldl]
    rw [ih]
    simp only [setDeleted, List.map_map]
    congr 1
    funext r
    by_cases h1 : r.id = p.id
    · simp only [Function.comp]
      rw [if_pos h1]
      have hmem : r.id ∈ (p :: ps).map fun q => q.id := by simp [h1]
      rw [if_pos hmem]
      split <;> rfl
    · simp only [Function.comp]
      rw [if_neg h1]
      have hiff : (r.id ∈ (p :: ps).map fun q => q.id) ↔
          (r.id ∈ ps.map fun q => q.id) := by simp [h1]
      by_cases h2 : r.id ∈ ps.map fun q => q.id
      · rw [if_pos h2, if_pos (hiff.mpr h2)]
      · rw [if_neg h2, if_neg (fun hc => h2 (hiff.mp hc))]

/-- After the root-marking loop of `delete_project`, no live row with the
deleted logical identifier remains. -/
lemma roots_marking_noLive (db : PDb) (pid : Nat) :
    NoLive pid ((db.filter fun r => decide (r.project_id = pid ∧ r.deleted = 0)).foldl
      (fun d r => setDeleted d r.id) db) := by
  rw [foldl_setDeleted_eq]
  intro r' hr' hpid
  obtain ⟨r, hrmem, rfl⟩ := List.mem_map.mp hr'
  by_cases hid :
      r.id ∈ (db.filter fun q => decide (q.project_id = pid ∧ q.deleted = 0)).map
        (fun q => q.id)
  · simp only [if_pos hid]
    simp
  · simp only [if_neg hid] at hpid ⊢
    intro hdel
    exact hid (List.mem_map.mpr
      ⟨r, List.mem_filter.mpr ⟨hrmem, by simp [hpid, hdel]⟩, rfl⟩)

lemma markChildren_marked :
    ∀ (fuel : Nat) (db : PDb) (pid : Nat) (out : PDb × List Project),
      markChildren fuel db pid = some out → Marked db out.1 := by
  intro fuel
  induction fuel with
  | zero => intro db pid out h; simp [markChildren] at h
  | succ fuel ih =>
    have fold :
        ∀ (cs : List Project) (st out : PDb × List Project),
          (cs.foldlM (fun st c => do
            let db1 := setDeleted st.1 c.id
            let (db2, ds) ← markChildren fuel db1 c.project_id
            pure (db2, st.2 ++ [{ c with deleted := 1 }] ++ ds)) st) = some out →
          Marked st.1 out.1 := by
      intro cs
      induction cs with
      | nil =>
        intro st out h
        simp only [List.foldlM] at h
        cases h
        exact marked_refl _
      | cons c rest ihc =>
        intro st out h
        rw [List.foldlM_cons] at h
        obtain ⟨st', hst', hrest⟩ := Option.bind_eq_some.mp h
        obtain ⟨x, hx, hpure⟩ := Option.bind_eq_some.mp hst'
        have h1 : Marked st.1 x.1 :=
          marked_trans (setDeleted_marked st.1 c.id) (ih _ _ x hx)
        have h2 : Marked x.1 out.1 := by
          have hst'1 : st'.1 = x.1 := by cases hpure; rfl
          simpa [hst'1] using ihc st' out hrest
        exact marked_trans h1 h2
    intro db pid out h
    simp only [markChildren] at h
    exact fold _ (db, []) out h

/-- Inversion of a successful `delete_project`: the post-state has no
live row with the deleted identifier, and differs from the pre-state only
in `deleted` flags. -/
lemma delete_project_ok_inv {db db' : PDb} {pid : Nat} {l : List Project}
    (h : delete_project db pid = (db', .ok l)) :
    NoLive pid db' ∧ Marked db db' := by
  simp only [delete_project] at h
  by_cases hne : (db.filter fun r => decide (r.project_id = pid ∧ r.deleted = 0)) = []
  · rw [if_pos hne] at h
    cases h
  · rw [if_neg hne] at h
    set db1 := (db.filter fun r => decide (r.project_id = pid ∧ r.deleted = 0)).foldl
      (fun d r => setDeleted d r.id) db with hdb1
    cases hmk : markChildren (db1.length + 1) db1 pid with
    | none => rw [hmk] at h; cases h
    | some out =>
      rw [hmk] at h
      cases h
      have hnl1 : NoLive pid db1 := roots_marking_noLive db pid
      have hm1 : Marked db db1 := foldl_setDeleted_marked _ db
      have hm2 : Marked db1 out.1 := markChildren_marked _ _ _ _ hmk
      exact ⟨noLive_marked hnl1 hm2, marked_trans hm1 hm2⟩

/-- Dissociation only touches the `parent_id` foreign key: the surrogate
key is untouched. -/
lemma dissociate_id (m r : Milestone) :
    (MilestoneController.dissociate m r).id = r.id := by
  unfold MilestoneController.dissociate
  split <;> rfl

/-! ## C4 — delete is not idempotent -/

/-- C4: after a successful delete of an identifier, a second delete call
on the same identifier fails with the not-found error while leaving the
store unchanged — for `ProjectController.delete_project` (whose second
root query finds no live row) and `MilestoneController.delete` (whose row
was removed) alike. -/
theorem c4_delete_not_idempotent :
    (∀ (db : PDb) (pid : Nat) (db' : PDb) (l : List Project),
      delete_project db pid = (db', .ok l) →
      delete_project db' pid = (db', .error "Project not found.")) ∧
    (∀ (st : MState) (m : Milestone) (st' : MState) (l : List Milestone),
      MilestoneController.delete st m = (st', .ok l) →
      MilestoneController.delete st' m = (st', .error "Milestone not found.")) := by
  constructor
  · intro db pid db' l h
    have hnl : NoLive pid db' := (delete_project_ok_inv h).1
    have hfil : (db'.filter fun r => decide (r.project_id = pid ∧ r.deleted = 0)) = [] := by
      apply List.filter_eq_nil_iff.mpr
      intro r hr
      simp only [decide_eq_true_eq, not_and]
      intro hpid
      exact hnl r hr hpid
    unfold delete_project
    rw [hfil]
    simp
  · intro st m st' l h
    unfold MilestoneController.delete at h
    by_cases hne : (st.rows.filter fun r => decide (r.id = m.id)) = []
    · rw [if_pos hne] at h; cases h
    · rw [if_neg hne] at h
      cases hc : MilestoneController.collect_children (st.rows.length + 1) st.rows m with
      | none => rw [hc] at h; cases h
      | some cs =>
        rw [hc] at h
        cases h
        have hfil :
            (((st.rows.filter fun r => decide (¬ r.id = m.id)).map
              (MilestoneController.dissociate m)).filter
              fun r => decide (r.id = m.id)) = [] := by
          apply List.filter_eq_nil_iff.mpr
          intro r hr
          obtain ⟨r0, hr0, rfl⟩ := List.mem_map.mp hr
          have h0 := (List.mem_filter.mp hr0).2
          simp only [decide_eq_true_eq] at h0 ⊢
          rw [dissociate_id]
          exact h0
        unfold MilestoneController.delete
        simp only [hfil]
        simp

/-- Witness for C4: deleting logical id 10 from the concrete tree and
deleting it again; similarly for the milestone tree. -/
theorem c4_witness :
    delete_project
      [{ (projRow 1 10 none ("p") ("")) with deleted := 1 },
       { (projRow 2 20 (some 10) ("c") ("")) with deleted := 1 },
       { (projRow 3 30 (some 20) ("g") ("")) with deleted := 1 },
       projRow 4 40 none ("u") ("")] 10 =
      ([{ (projRow 1 10 none ("p") ("")) with deleted := 1 },
        { (projRow 2 20 (some 10) ("c") ("")) with deleted := 1 },
        { (projRow 3 30 (some 20) ("g") ("")) with deleted := 1 },
        projRow 4 40 none ("u") ("")], .error "Project not found.") ∧
    MilestoneController.delete
      { rows := [milRow 2 20 none ("c"), milRow 3 30 (some 20) ("g"),
                 milRow 4 40 none ("u")], versions := [] }
      (milRow 1 10 none ("p")) =
      ({ rows := [milRow 2 20 none ("c"), milRow 3 30 (some 20) ("g"),
                  milRow 4 40 none ("u")], versions := [] },
       .error "Milestone not found.") :=
  ⟨c4_delete_not_idempotent.1 (projectTree ("p") ("c") ("g") ("u") ("") ("") ("") ("")) 10
      [{ (projRow 1 10 none ("p") ("")) with deleted := 1 },
       { (projRow 2 20 (some 10) ("c") ("")) with deleted := 1 },
       { (projRow 3 30 (some 20) ("g") ("")) with deleted := 1 },
       projRow 4 40 none ("u") ("")]
      [{ (projRow 1 10 none ("p") ("")) with deleted := 1 },
       { (projRow 2 20 (some 10) ("c") ("")) with deleted := 1 },
       { (projRow 3 30 (some 20) ("g") ("")) with deleted := 1 }]
      (by decide),
   c4_delete_not_idempotent.2 (milestoneTree ("p") ("c") ("g") ("u"))
      (milRow 1 10 none ("p"))
      { rows := [milRow 2 20 none ("c"), milRow 3 30 (some 20) ("g"),
                 milRow 4 40 none ("u")], versions := [] }
      [milRow 1 10 none ("p"), milRow 2 20 none ("c"), milRow 3 30 (some 20) ("g")]
      (by decide)⟩

/-! ## Characterization of update_project -/

/-- Unfolding of a successful `update_project`: the live row of maximal
version is overwritten in place, each field taking the argument when it
is not `None` and keeping its stored value otherwise, with `version`
incremented. -/
lemma update_project_spec (db : PDb) (pid : Nat)
    (t d o pm ps : Option String) (i c par : Option Nat) (p : Project)
    (hp : maxVersionFirst (liveById db pid) = some p) :
    update_project db pid t d o pm ps i c par =
      (replaceRow db p.id
        { p with
          title := t.getD p.title,
          description := d.getD p.description,
          organization := o.getD p.organization,
          project_manager := pm.getD p.project_manager,
          project_sponsor := ps.getD p.project_sponsor,
          initiation_date := i.orElse fun _ => p.initiation_date,
          closure_date := c.orElse fun _ => p.closure_date,
          parent_id := par.orElse fun _ => p.parent_id,
          version := p.version + 1 },
       .ok { p with
          title := t.getD p.title,
          description := d.getD p.description,
          organization := o.getD p.organization,
          project_manager := pm.getD p.project_manager,
          project_sponsor := ps.getD p.project_sponsor,
          initiation_date := i.orElse fun _ => p.initiation_date,
          closure_date := c.orElse fun _ => p.closure_date,
          parent_id := par.orElse fun _ => p.parent_id,
          version := p.version + 1 }) := by
  simp only [update_project, hp]

/-! ## C10 — None arguments never touch stored fields -/

/-- C10: a successful `update_project` writes exactly the non-`None`
arguments: every argument passed as `None` leaves the corresponding
stored field unchanged, and consequently a nullable field
(`initiation_date`, `closure_date`, `parent_id`) can be `None` after the
update only if it was `None` before — no field can be reset to null
through `update_project`. -/
theorem c10_update_none_preserves_fields
    (db : PDb) (pid : Nat) (t d o pm ps : Option String) (i c par : Option Nat)
    (db' : PDb) (p' : Project)
    (h : update_project db pid t d o pm ps i c par = (db', .ok p')) :
    ∃ p, maxVersionFirst (liveById db pid) = some p ∧
      (t = none → p'.title = p.title) ∧
      (d = none → p'.description = p.description) ∧
      (o = none → p'.organization = p.organization) ∧
      (pm = none → p'.project_manager = p.project_manager) ∧
      (ps = none → p'.project_sponsor = p.project_sponsor) ∧
      (i = none → p'.initiation_date = p.initiation_date) ∧
      (c = none → p'.closure_date = p.closure_date) ∧
      (par = none → p'.parent_id = p.parent_id) ∧
      (∀ v, i = some v → p'.initiation_date = some v) ∧
      (∀ v, c = some v → p'.closure_date = some v) ∧
      (∀ v, par = some v → p'.parent_id = some v) ∧
      (p'.initiation_date = none → p.initiation_date = none) ∧
      (p'.closure_date = none → p.closure_date = none) ∧
      (p'.parent_id = none → p.parent_id = none) ∧
      db' = replaceRow db p.id p' := by
  cases hp : maxVersionFirst (liveById db pid) with
  | none => simp only [update_project, hp] at h; cases h
  | some p =>
    rw [update_project_spec db pid t d o pm ps i c par p hp] at h
    obtain ⟨hdb, hp'⟩ := Prod.mk.injEq .. ▸ h
    cases hp'
    refine ⟨p, rfl, ?_, ?_, ?_, ?_, ?_, ?_, ?_, ?_, ?_, ?_, ?_, ?_, ?_, ?_, hdb.symm ▸ rfl⟩
    · intro ht; subst ht; rfl
    · intro ht; subst ht; rfl
    · intro ht; subst ht; rfl
    · intro ht; subst ht; rfl
    · intro ht; subst ht; rfl
    · intro ht; subst ht; rfl
    · intro ht; subst ht; rfl
    · intro ht; subst ht; rfl
    · intro v hv; subst hv; rfl
    · intro v hv; subst hv; rfl
    · intro v hv; subst hv; rfl
    · cases i <;> simp [Option.orElse]
    · cases c <;> simp [Option.orElse]
    · cases par <;> simp [Option.orElse]

/-- Witness for C10: an update of the concrete tree with every argument
`None` except the title. -/
theorem c10_witness :
    ∃ p, maxVersionFirst (liveById [projRow 1 10 none ("x") ("y")] 10) = some p ∧
      (some ("z") = none → ({ (projRow 1 10 none ("z") ("y")) with version := 2 } : Project).title = p.title) ∧
      ((none : Option String) = none → ({ (projRow 1 10 none ("z") ("y")) with version := 2 } : Project).description = p.description) ∧
      ((none : Option String) = none → ({ (projRow 1 10 none ("z") ("y")) with version := 2 } : Project).organization = p.organization) ∧
      ((none : Option String) = none → ({ (projRow 1 10 none ("z") ("y")) with version := 2 } : Project).project_manager = p.project_manager) ∧
      ((none : Option String) = none → ({ (projRow 1 10 none ("z") ("y")) with version := 2 } : Project).project_sponsor = p.project_sponsor) ∧
      ((none : Option Nat) = none → ({ (projRow 1 10 none ("z") ("y")) with version := 2 } : Project).initiation_date = p.initiation_date) ∧
      ((none : Option Nat) = none → ({ (projRow 1 10 none ("z") ("y")) with version := 2 } : Project).closure_date = p.closure_date) ∧
      ((none : Option Nat) = none → ({ (projRow 1 10 none ("z") ("y")) with version := 2 } : Project).parent_id = p.parent_id) ∧
      (∀ v, (none : Option Nat) = some v → ({ (projRow 1 10 none ("z") ("y")) with version := 2 } : Project).initiation_date = some v) ∧
      (∀ v, (none : Option Nat) = some v → ({ (projRow 1 10 none ("z") ("y")) with version := 2 } : Project).closure_date = some v) ∧
      (∀ v, (none : Option Nat) = some v → ({ (projRow 1 10 none ("z") ("y")) with version := 2 } : Project).parent_id = some v) ∧
      (({ (projRow 1 10 none ("z") ("y")) with version := 2 } : Project).initiation_date = none → p.initiation_date = none) ∧
      (({ (projRow 1 10 none ("z") ("y")) with version := 2 } : Project).closure_date = none → p.closure_date = none) ∧
      (({ (projRow 1 10 none ("z") ("y")) with version := 2 } : Project).parent_id = none → p.parent_id = none) ∧
      [{ (projRow 1 10 none ("z") ("y")) with version := 2 }] =
        replaceRow [projRow 1 10 none ("x") ("y")] p.id
          { (projRow 1 10 none ("z") ("y")) with version := 2 } :=
  c10_update_none_preserves_fields [projRow 1 10 none ("x") ("y")] 10
    (some ("z")) none none none none none none none
    [{ (projRow 1 10 none ("z") ("y")) with version := 2 }]
    { (projRow 1 10 none ("z") ("y")) with version := 2 } (by decide)

/-- Freshly constructed in-memory milestone object, as the pages build
them: linked to the project with surrogate key 1, no parent, nothing
flushed yet. -/
def milIn (t0 : String) : Milestone :=
  { id := 0, milestone_id := 1, version := 1, title := t0, description := "",
    initial_baseline_date := none, latest_baseline_date := none,
    acceptance_criteria := "", project_id := none, parent_id := none,
    deleted := 0, project := some 1, parent := none, created := none,
    last_modified := none }

/-! ## C7 — there is no hierarchy validation at all -/

/-- Counterexample to C7: setting a project's `parent_id` to its own
logical identifier through `update_project` succeeds (no `SelfReference`
failure), and `add_project` accepts a `parent_id` that resolves to no
entity whatsoever (no `ParentNotFound` failure). -/
theorem c7_counterexample :
    (update_project [projRow 1 10 none ("t") ("")] 10
        none none none none none none none (some 10)).2 =
      .ok { (projRow 1 10 none ("t") ("")) with parent_id := some 10, version := 2 } ∧
    (add_project [77] [] ("t") ("") ("") ("") ("") none none (some 999)).2 =
      .ok { (projRow 1 77 (some 999) ("t") ("")) with id := 1 } := by
  decide

/-- C7 as the code has it: neither controller validates the candidate
parent.  `add_project` succeeds for any `parent_id` (self-referential or
dangling) as soon as the identifier allocator succeeds; `update_project`
writes any supplied `parent_id` over the live row, its only failure being
the not-found case; and `MilestoneController.add`'s only validation is
the project linkage, whose failure raises `ValueError` before any write,
leaving the session unchanged. -/
theorem c7_no_hierarchy_validation :
    (∀ (cands : List Nat) (db : PDb) (t d o pm ps : String) (i c : Option Nat)
        (par : Option Nat) (pid : Nat), genProjectId cands db = some pid →
      (add_project cands db t d o pm ps i c par).2 =
        .ok { id := nextId db, project_id := pid, version := 1, title := t,
              description := d, organization := o, project_manager := pm,
              project_sponsor := ps, initiation_date := i, closure_date := c,
              parent_id := par, deleted := 0 }) ∧
    (∀ (db : PDb) (pid : Nat) (t d o pm ps : Option String) (i c par : Option Nat)
        (p : Project), maxVersionFirst (liveById db pid) = some p →
      ∃ p', update_project db pid t d o pm ps i c par = (replaceRow db p.id p', .ok p') ∧
        p'.parent_id = par.orElse fun _ => p.parent_id) ∧
    (∀ (now : Nat) (st : MState) (m : Milestone),
      m.parent = none → m.project = none →
      MilestoneController.add now st m = (st, .error "Milestone must be linked to project.")) := by
  refine ⟨?_, ?_, ?_⟩
  · intro cands db t d o pm ps i c par pid hg
    simp [add_project, hg]
  · intro db pid t d o pm ps i c par p hp
    exact ⟨_, update_project_spec db pid t d o pm ps i c par p hp, rfl⟩
  · intro now st m hpar hproj
    simp [MilestoneController.add, hpar, hproj]

/-- Witness for C7 at concrete inputs: a dangling parent on `add_project`,
a self-referential parent on `update_project`, and a project-less
milestone on `add`. -/
theorem c7_witness :
    (add_project [77] [] ("t") ("") ("") ("") ("") none none (some 77)).2 =
      .ok { id := 1, project_id := 77, version := 1, title := ("t"),
            description := "", organization := "", project_manager := "",
            project_sponsor := "", initiation_date := none, closure_date := none,
            parent_id := some 77, deleted := 0 } ∧
    (∃ p', update_project [projRow 1 10 none ("t") ("")] 10
        none none none none none none none (some 10) =
          (replaceRow [projRow 1 10 none ("t") ("")] 1 p', .ok p') ∧
      p'.parent_id = (some 10).orElse fun _ => (projRow 1 10 none ("t") ("")).parent_id) ∧
    MilestoneController.add 3 (milestoneTree ("a") ("b") ("c") ("d"))
        { (milIn ("x")) with project := none } =
      ((milestoneTree ("a") ("b") ("c") ("d")),
       .error "Milestone must be linked to project.") :=
  ⟨c7_no_hierarchy_validation.1 [77] [] ("t") ("") ("") ("") ("") none none
      (some 77) 77 (by decide),
   c7_no_hierarchy_validation.2.1 [projRow 1 10 none ("t") ("")] 10
      none none none none none none none (some 10)
      (projRow 1 10 none ("t") ("")) (by decide),
   c7_no_hierarchy_validation.2.2 3 (milestoneTree ("a") ("b") ("c") ("d"))
      { (milIn ("x")) with project := none } rfl rfl⟩

/-! ## C5 — behaviour of the descendant traversals on a cyclic parent chain -/

/-- Corrupted milestone row: milestone 10 claims milestone 20 as parent. -/
def cycM1 : Milestone := { (milRow 1 10 none ("a")) with parent_id := some 20 }

/-- Corrupted milestone row: milestone 20 claims milestone 10 as parent. -/
def cycM2 : Milestone := milRow 2 20 (some 10) ("b")

/-- A milestone store whose parent links form a two-cycle. -/
def cycRows : List Milestone := [cycM1, cycM2]

/-- On the cyclic store, `collect_children` exhausts every recursion
depth: no amount of fuel produces a result, the direct image of the
unbounded mutual recursion of the Python helper. -/
lemma collect_children_cyc (fuel : Nat) :
    MilestoneController.collect_children fuel cycRows cycM1 = none ∧
    MilestoneController.collect_children fuel cycRows cycM2 = none := by
  induction fuel with
  | zero => exact ⟨rfl, rfl⟩
  | succ fuel ih =>
    have h1 : MilestoneController.childrenOf cycRows cycM1 = [cycM2] := by decide
    have h2 : MilestoneController.childrenOf cycRows cycM2 = [cycM1] := by decide
    constructor
    · simp only [MilestoneController.collect_children, h1, List.foldlM_cons,
        List.foldlM_nil]
      simp [ih.2]
    · simp only [MilestoneController.collect_children, h2, List.foldlM_cons,
        List.foldlM_nil]
      simp [ih.1]

/-- Corrupted project row: project 10 claims project 20 as parent. -/
def cycP1 : Project := projRow 1 10 (some 20) ("a") ("")

/-- Corrupted project row: project 20 claims project 10 as parent. -/
def cycP2 : Project := projRow 2 20 (some 10) ("b") ("")

/-- Counterexample to C5: on a cyclic parent chain neither traversal
fails with a cycle-detection error.  The milestone traversal exhausts the
recursion depth (Python's `RecursionError`, i.e. divergence of the
unguarded recursion), and the project traversal returns successfully,
silently marking the cycle members. -/
theorem c5_counterexample :
    MilestoneController.delete { rows := cycRows, versions := [] } cycM1 =
      ({ rows := cycRows, versions := [] },
       .error "maximum recursion depth exceeded") ∧
    delete_project [cycP1, cycP2] 10 =
      ([{ cycP1 with deleted := 1 }, { cycP2 with deleted := 1 }],
       .ok [{ cycP1 with deleted := 1 }, { cycP2 with deleted := 1 }]) := by
  decide

/-- C5 as the code has it: no visited set is kept and no `CycleDetected`
error exists.  `collect_children` diverges on a cyclic milestone store —
for every recursion depth it fails to produce a result — while
`mark_children_as_deleted` does terminate on a cyclic project store, but
only because marked rows drop out of the live-children query; it silently
returns the cycle members instead of erroring. -/
theorem c5_no_cycle_detection :
    (∀ fuel, MilestoneController.collect_children fuel cycRows cycM1 = none) ∧
    delete_project [cycP1, cycP2] 10 =
      ([{ cycP1 with deleted := 1 }, { cycP2 with deleted := 1 }],
       .ok [{ cycP1 with deleted := 1 }, { cycP2 with deleted := 1 }]) :=
  ⟨fun fuel => (collect_children_cyc fuel).1, by decide⟩

/-! ## Scenario machinery: one milestone added and then mutated N times -/

/-- The row that a successful `update` of a parent-less milestone
commits: the object's fields with the modification stamp advanced and the
foreign keys resolved. -/
def updRow (m : Milestone) (now : Nat) : Milestone :=
  { m with
    last_modified := some now,
    project_id := m.project,
    parent_id := none }

/-- Unfolding of a successful `MilestoneController.update` of a
parent-less milestone linked to a project. -/
lemma update_ok_of (now : Nat) (st : MState) (m : Milestone)
    (hne : (st.rows.filter fun r => decide (r.id = m.id)) ≠ [])
    (hpar : m.parent = none) (hproj : ¬ m.project = none) :
    MilestoneController.update now st m =
      (appendVersion
        { st with rows := (st.rows.map fun r => if r.id = m.id then updRow m now else r) }
        (updRow m now),
       .ok (updRow m now)) := by
  simp only [MilestoneController.update, if_neg hne, hpar]
  rw [if_neg hproj]
  simp [hpar, updRow]

/-- The add-then-update scenario: apply a sequence of title mutations,
each with its clock value, through `MilestoneController.update`. -/
def runUpdates (st : MState) (m : Milestone) : List (String × Nat) → MState × Milestone
  | [] => (st, m)
  | (t, now) :: rest =>
    match MilestoneController.update now st { m with title := t } with
    | (st', .ok m') => runUpdates st' m' rest
    | (st', .error _) => (st', m)

/-- Invariant of the scenario: a single current row — entity 1, linked to
project 1, parent-less, its creation stamp untouched — and every snapshot
of the entity recorded with ascending sequence numbers, the last snapshot
being the current state. -/
def ScenarioInv (n0 lastNow : Nat) (st : MState) (m : Milestone) (n : Nat) : Prop :=
  st.rows = [m] ∧ m.id = 1 ∧ m.project = some 1 ∧ m.parent = none ∧
  m.created = some n0 ∧ m.last_modified = some lastNow ∧
  st.versions.map Prod.fst = (List.range n).map (fun k => k + 1) ∧
  st.versions.getLast? = some (n, m) ∧
  (∀ v ∈ st.versions, v.2.id = 1) ∧ st.versions.length = n

/-- The milestone row as persisted by the scenario's `add`. -/
def mil1 (t0 : String) (n0 : Nat) : Milestone :=
  { id := 1, milestone_id := 1, version := 1, title := t0, description := "",
    initial_baseline_date := none, latest_baseline_date := none,
    acceptance_criteria := "", project_id := some 1, parent_id := none,
    deleted := 0, project := some 1, parent := none, created := some n0,
    last_modified := some n0 }

/-- Adding the fresh milestone establishes the invariant at one snapshot. -/
lemma add_scenario (t0 : String) (n0 : Nat) :
    MilestoneController.add n0 ⟨[], []⟩ (milIn t0) =
      ({ rows := [mil1 t0 n0], versions := [(1, mil1 t0 n0)] }, .ok (mil1 t0 n0)) ∧
    ScenarioInv n0 n0 { rows := [mil1 t0 n0], versions := [(1, mil1 t0 n0)] }
      (mil1 t0 n0) 1 := by
  refine ⟨rfl, rfl, rfl, rfl, rfl, rfl, rfl, rfl, rfl, ?_, rfl⟩
  intro v hv
  rw [List.mem_singleton] at hv
  subst hv
  rfl

/-- One committed mutation preserves the invariant, advancing the
snapshot count and the modification stamp. -/
lemma update_scenario {n0 lastNow n : Nat} {st : MState} {m : Milestone}
    (hinv : ScenarioInv n0 lastNow st m n) (t : String) (now : Nat) :
    ∃ st' m', MilestoneController.update now st { m with title := t } = (st', .ok m') ∧
      ScenarioInv n0 now st' m' (n + 1) := by
  obtain ⟨hrows, hid, hproj, hpar, hcr, hlm, hmap, hlast, hids, hlen⟩ := hinv
  have hne : (st.rows.filter fun r => decide (r.id = ({ m with title := t } : Milestone).id)) ≠ [] := by
    rw [hrows]; simp
  have hpar' : ({ m with title := t } : Milestone).parent = none := hpar
  have hproj' : ¬ ({ m with title := t } : Milestone).project = none := by
    show ¬ m.project = none
    rw [hproj]
    intro hc
    cases hc
  rw [update_ok_of now st { m with title := t } hne hpar' hproj']
  have hRid : (updRow { m with title := t } now).id = 1 := hid
  have hseq : nextSeq
      { st with rows := (st.rows.map fun r =>
          if r.id = ({ m with title := t } : Milestone).id
          then updRow { m with title := t } now else r) }
      (updRow { m with title := t } now).id = n + 1 := by
    show (st.versions.filter fun v =>
      decide (v.2.id = (updRow { m with title := t } now).id)).length + 1 = n + 1
    simp only [hRid]
    have hself : (st.versions.filter fun v => decide (v.2.id = 1)) = st.versions :=
      List.filter_eq_self.mpr fun v hv => by simp [hids v hv]
    rw [hself, hlen]
  refine ⟨_, _, rfl, ?_, hRid, hproj, hpar, hcr, rfl, ?_, ?_, ?_, ?_⟩
  · show (st.rows.map fun r =>
        if r.id = ({ m with title := t } : Milestone).id
        then updRow { m with title := t } now else r) = _
    rw [hrows]
    simp
  · show (st.versions ++ [(nextSeq _ _, _)]).map Prod.fst = _
    rw [List.map_append, hmap, List.range_succ, List.map_append]
    simp [hseq]
  · show (st.versions ++ [(nextSeq _ _, _)]).getLast? = _
    rw [List.getLast?_concat]
    rw [hseq]
  · intro v hv
    rcases List.mem_append.mp hv with hv | hv
    · exact hids v hv
    · rw [List.mem_singleton] at hv
      subst hv
      exact hRid
  · show (st.versions ++ [(nextSeq _ _, _)]).length = n + 1
    rw [List.length_append, hlen]
    rfl

/-- Folding the whole mutation sequence through the invariant. -/
lemma runUpdates_inv :
    ∀ (us : List (String × Nat)) {n0 lastNow n : Nat} {st : MState} {m : Milestone},
      ScenarioInv n0 lastNow st m n →
      ∃ st' m', runUpdates st m us = (st', m') ∧
        ScenarioInv n0 ((us.map Prod.snd).getLastD lastNow) st' m' (n + us.length) := by
  intro us
  induction us with
  | nil =>
    intro n0 lastNow n st m hinv
    exact ⟨st, m, rfl, hinv⟩
  | cons u rest ih =>
    intro n0 lastNow n st m hinv
    obtain ⟨t, now⟩ := u
    obtain ⟨st', m', hupd, hinv'⟩ := update_scenario hinv t now
    obtain ⟨stF, mF, hrun, hinvF⟩ := ih hinv'
    refine ⟨stF, mF, ?_, ?_⟩
    · simp only [runUpdates, hupd]
      exact hrun
    · simp only [List.map_cons, List.getLastD_cons, List.length_cons]
      have harith : n + (rest.length + 1) = (n + 1) + rest.length := by omega
      rw [harith]
      exact hinvF

/-! ## C2 — history semantics -/

/-- Counterexample to C2: for `ProjectController`, an update after an add
leaves exactly one row in the store — the mutated one — so the pre-update
snapshot (title "A") has been overwritten, not retained; there is no
N+1-snapshot history on the project side at all. -/
theorem c2_counterexample :
    (update_project (add_project [10] [] ("A") ("") ("") ("") ("") none none none).1 10
        (some ("B")) none none none none none none none).1 =
      [{ id := 1, project_id := 10, version := 2, title := ("B"), description := "",
         organization := "", project_manager := "", project_sponsor := "",
         initiation_date := none, closure_date := none, parent_id := none,
         deleted := 0 }] := by
  decide

/-- C2 as the code has it.  For `MilestoneController`: an entity added
and then mutated N times has a history of exactly N+1 snapshots in
strictly descending sequence order whose head is the current state, and
every successful `update` appends one snapshot without touching the
existing ones.  For `ProjectController`: a successful `update_project`
keeps the number of rows unchanged — the current row is overwritten in
place and no snapshot is added. -/
theorem c2_history_semantics :
    (∀ (t0 : String) (n0 : Nat) (us : List (String × Nat)),
      ∃ stF mF, runUpdates { rows := [mil1 t0 n0], versions := [(1, mil1 t0 n0)] }
          (mil1 t0 n0) us = (stF, mF) ∧
        (MilestoneController.get_history stF mF).length = us.length + 1 ∧
        ((MilestoneController.get_history stF mF).map Prod.fst).Pairwise (fun a b => b < a) ∧
        (MilestoneController.get_history stF mF).head? = some (us.length + 1, mF) ∧
        stF.rows = [mF]) ∧
    (∀ (now : Nat) (st : MState) (m : Milestone) (st' : MState) (m' : Milestone),
      MilestoneController.update now st m = (st', .ok m') →
      ∃ v, st'.versions = st.versions ++ [v]) ∧
    (∀ (db : PDb) (pid : Nat) (t d o pm ps : Option String) (i c par : Option Nat)
        (db' : PDb) (p' : Project),
      update_project db pid t d o pm ps i c par = (db', .ok p') →
      db'.length = db.length) := by
  refine ⟨?_, ?_, ?_⟩
  · intro t0 n0 us
    obtain ⟨stF, mF, hrun, hinv⟩ := runUpdates_inv us (add_scenario t0 n0).2
    obtain ⟨hrows, hid, hproj, hpar, hcr, hlm, hmap, hlast, hids, hlen⟩ := hinv
    have hfil : (stF.versions.filter fun v => decide (v.2.id = mF.id)) = stF.versions := by
      apply List.filter_eq_self.mpr
      intro v hv
      simp [hids v hv, hid]
    refine ⟨stF, mF, hrun, ?_, ?_, ?_, hrows⟩
    · show ((stF.versions.filter fun v => decide (v.2.id = mF.id)).reverse).length = _
      rw [hfil, List.length_reverse, hlen]
      omega
    · show (((stF.versions.filter fun v => decide (v.2.id = mF.id)).reverse).map
          Prod.fst).Pairwise _
      rw [hfil, List.map_reverse, hmap, List.pairwise_reverse]
      have hbase : ((List.range (1 + us.length)).map (fun k => k + 1)).Pairwise (· < ·) :=
        (List.pairwise_lt_range _).map _ (fun hab => by omega)
      exact hbase.imp fun hab => hab
    · show ((stF.versions.filter fun v => decide (v.2.id = mF.id)).reverse).head? = _
      rw [hfil, List.head?_reverse, hlast, Nat.add_comm 1 us.length]
  · intro now st m st' m' h
    simp only [MilestoneController.update] at h
    by_cases h1 : (st.rows.filter fun r => decide (r.id = m.id)) = []
    · rw [if_pos h1] at h; cases h
    · rw [if_neg h1] at h
      cases hp : m.parent with
      | none =>
        simp only [hp] at h
        by_cases h2 : m.project = none
        · rw [if_pos h2] at h; cases h
        · rw [if_neg h2] at h
          injection h with hst _
          subst hst
          exact ⟨_, rfl⟩
      | some pref =>
        simp only [hp] at h
        by_cases h2 : pref.project = none
        · rw [if_pos h2] at h; cases h
        · rw [if_neg h2] at h
          injection h with hst _
          subst hst
          exact ⟨_, rfl⟩
  · intro db pid t d o pm ps i c par db' p' h
    cases hp : maxVersionFirst (liveById db pid) with
    | none => simp only [update_project, hp] at h; cases h
    | some p =>
      rw [update_project_spec db pid t d o pm ps i c par p hp] at h
      injection h with h1 _
      subst h1
      simp [replaceRow]

/-- Witness for C2 at concrete inputs: one milestone update appends one
snapshot; one project update leaves the single row in place. -/
theorem c2_witness :
    (∃ v, (appendVersion
        { rows := ([mil1 ("a") 0].map fun r =>
            if r.id = ({ (mil1 ("a") 0) with title := ("b") } : Milestone).id
            then updRow { (mil1 ("a") 0) with title := ("b") } 7 else r),
          versions := [(1, mil1 ("a") 0)] }
        (updRow { (mil1 ("a") 0) with title := ("b") } 7)).versions =
      [(1, mil1 ("a") 0)] ++ [v]) ∧
    [{ (projRow 1 10 none ("y") ("")) with version := 2 }].length =
      [projRow 1 10 none ("x") ("")].length :=
  ⟨c2_history_semantics.2.1 7 { rows := [mil1 ("a") 0], versions := [(1, mil1 ("a") 0)] }
      { (mil1 ("a") 0) with title := ("b") }
      (appendVersion
        { rows := ([mil1 ("a") 0].map fun r =>
            if r.id = ({ (mil1 ("a") 0) with title := ("b") } : Milestone).id
            then updRow { (mil1 ("a") 0) with title := ("b") } 7 else r),
          versions := [(1, mil1 ("a") 0)] }
        (updRow { (mil1 ("a") 0) with title := ("b") } 7))
      (updRow { (mil1 ("a") 0) with title := ("b") } 7) (by decide),
   c2_history_semantics.2.2 [projRow 1 10 none ("x") ("")] 10
      (some ("y")) none none none none none none none
      [{ (projRow 1 10 none ("y") ("")) with version := 2 }]
      { (projRow 1 10 none ("y") ("")) with version := 2 } (by decide)⟩

/-! ## C9 — creation and modification stamps -/

/-- Counterexample to C9: the `Project` model declares no `created` or
`last_modified` column and `ProjectController.add_project` sets no
timestamp of any kind — the row it persists consists of the twelve mapped
columns only.  The Project half of the claim therefore fails. -/
theorem c9_counterexample :
    ¬ ("created" ∈ projectColumns) ∧ ¬ ("last_modified" ∈ projectColumns) ∧
    (add_project [7] [] ("t") ("") ("") ("") ("") none none none).2 =
      .ok { id := 1, project_id := 7, version := 1, title := ("t"), description := "",
            organization := "", project_manager := "", project_sponsor := "",
            initiation_date := none, closure_date := none, parent_id := none,
            deleted := 0 } := by
  decide

/-- C9 as the code has it, for Milestone objects only: `add` stamps
`created = last_modified = now` on the object, `update` advances
`last_modified` to its `now` and never touches `created`, and across any
add-then-update sequence `created` still carries the clock of the add
while `last_modified` carries the clock of the last update.  (These are
in-memory attributes: neither is a mapped column, and Project has none of
this.) -/
theorem c9_milestone_timestamps :
    (∀ (now : Nat) (st : MState) (m : Milestone) (st' : MState) (m' : Milestone),
      MilestoneController.add now st m = (st', .ok m') →
      m'.created = some now ∧ m'.last_modified = some now) ∧
    (∀ (now : Nat) (st : MState) (m : Milestone) (st' : MState) (m' : Milestone),
      MilestoneController.update now st m = (st', .ok m') →
      m'.last_modified = some now ∧ m'.created = m.created) ∧
    (∀ (t0 : String) (n0 : Nat) (us : List (String × Nat)),
      ∃ stF mF, runUpdates { rows := [mil1 t0 n0], versions := [(1, mil1 t0 n0)] }
          (mil1 t0 n0) us = (stF, mF) ∧
        mF.created = some n0 ∧
        mF.last_modified = some ((us.map Prod.snd).getLastD n0)) := by
  refine ⟨?_, ?_, ?_⟩
  · intro now st m st' m' h
    simp only [MilestoneController.add] at h
    cases hp : m.parent with
    | none =>
      simp only [hp] at h
      by_cases h2 : m.project = none
      · rw [if_pos h2] at h; cases h
      · rw [if_neg h2] at h
        split at h
        · injection h with _ hex
          injection hex with hrow
          subst hrow
          exact ⟨rfl, rfl⟩
        · cases h
    | some pref =>
      simp only [hp] at h
      by_cases h2 : pref.project = none
      · rw [if_pos h2] at h; cases h
      · rw [if_neg h2] at h
        split at h
        · injection h with _ hex
          injection hex with hrow
          subst hrow
          exact ⟨rfl, rfl⟩
        · cases h
  · intro now st m st' m' h
    simp only [MilestoneController.update] at h
    by_cases h1 : (st.rows.filter fun r => decide (r.id = m.id)) = []
    · rw [if_pos h1] at h; cases h
    · rw [if_neg h1] at h
      cases hp : m.parent with
      | none =>
        simp only [hp] at h
        by_cases h2 : m.project = none
        · rw [if_pos h2] at h; cases h
        · rw [if_neg h2] at h
          injection h with _ hex
          injection hex with hrow
          subst hrow
          exact ⟨rfl, rfl⟩
      | some pref =>
        simp only [hp] at h
        by_cases h2 : pref.project = none
        · rw [if_pos h2] at h; cases h
        · rw [if_neg h2] at h
          injection h with _ hex
          injection hex with hrow
          subst hrow
          exact ⟨rfl, rfl⟩
  · intro t0 n0 us
    obtain ⟨stF, mF, hrun, hinv⟩ := runUpdates_inv us (add_scenario t0 n0).2
    exact ⟨stF, mF, hrun, hinv.2.2.2.2.1, hinv.2.2.2.2.2.1⟩

/-- Witness for C9 at concrete inputs: an add at clock 4 and an update at
clock 7. -/
theorem c9_witness :
    ((mil1 ("a") 4).created = some 4 ∧ (mil1 ("a") 4).last_modified = some 4) ∧
    ((updRow { (mil1 ("a") 0) with title := ("b") } 7).last_modified = some 7 ∧
     (updRow { (mil1 ("a") 0) with title := ("b") } 7).created =
       ({ (mil1 ("a") 0) with title := ("b") } : Milestone).created) :=
  ⟨c9_milestone_timestamps.1 4 ⟨[], []⟩ (milIn ("a"))
      { rows := [mil1 ("a") 4], versions := [(1, mil1 ("a") 4)] } (mil1 ("a") 4)
      (by decide),
   c9_milestone_timestamps.2.1 7
      { rows := [mil1 ("a") 0], versions := [(1, mil1 ("a") 0)] }
      { (mil1 ("a") 0) with title := ("b") }
      (appendVersion
        { rows := ([mil1 ("a") 0].map fun r =>
            if r.id = ({ (mil1 ("a") 0) with title := ("b") } : Milestone).id
            then updRow { (mil1 ("a") 0) with title := ("b") } 7 else r),
          versions := [(1, mil1 ("a") 0)] }
        (updRow { (mil1 ("a") 0) with title := ("b") } 7))
      (updRow { (mil1 ("a") 0) with title := ("b") } 7) (by decide)⟩

/-! ## C8 — identifier allocation -/

/-- A successful allocation returns a value matching no existing row,
deleted rows included. -/
lemma genProjectId_fresh :
    ∀ (cands : List Nat) (db : PDb) (c : Nat),
      genProjectId cands db = some c → ∀ r ∈ db, r.project_id ≠ c := by
  intro cands
  induction cands with
  | nil => intro db c h; cases h
  | cons a as ih =>
    intro db c h r hr
    by_cases hf : (db.filter fun q => decide (q.project_id = a)) = []
    · simp only [genProjectId, if_pos hf] at h
      cases h
      intro heq
      have hmem : r ∈ db.filter fun q => decide (q.project_id = a) :=
        List.mem_filter.mpr ⟨hr, by simp [heq]⟩
      rw [hf] at hmem
      cases hmem
    · simp only [genProjectId, if_neg hf] at h
      exact ih db c h r hr

/-- Counterexample to C8: `MilestoneController.add` allocates no
identifier at all — `milestone_id` is whatever the caller's object
carries.  A second add colliding on `(milestone_id, version)` is not
retried against a fresh identifier as the claim states: the commit raises
`IntegrityError`; and a second add with the same `milestone_id` at
another `version` commits, leaving two rows sharing the logical
identifier 5. -/
theorem c8_counterexample :
    (MilestoneController.add 0
        (MilestoneController.add 0 ⟨[], []⟩
          { (milIn ("a")) with milestone_id := 5 }).1
        { (milIn ("b")) with milestone_id := 5 }).2 =
      .error "IntegrityError" ∧
    (MilestoneController.add 0
        (MilestoneController.add 0 ⟨[], []⟩
          { (milIn ("a")) with milestone_id := 5 }).1
        { (milIn ("b")) with milestone_id := 5, version := 2 }).1.rows.map
      (fun r => r.milestone_id) = [5, 5] := by
  decide

/-- C8 as the code has it, for `ProjectController.add_project` only: the
allocated `project_id` is rejection-sampled against every existing row of
the table — deleted rows included, so identifiers of deleted projects are
never reused — and any two entities created by successive adds carry
distinct logical identifiers, however the store is pre-seeded.
`MilestoneController.add` performs no allocation (see the
counterexample). -/
theorem c8_project_id_allocation :
    (∀ (cands : List Nat) (db : PDb) (t d o pm ps : String) (i c : Option Nat)
        (par : Option Nat) (db' : PDb) (p : Project),
      add_project cands db t d o pm ps i c par = (db', .ok p) →
      (∀ r ∈ db, r.project_id ≠ p.project_id) ∧ p ∈ db') ∧
    (∀ (cands1 cands2 : List Nat) (db : PDb)
        (t1 d1 o1 pm1 ps1 t2 d2 o2 pm2 ps2 : String)
        (i1 c1 par1 i2 c2 par2 : Option Nat)
        (db1 : PDb) (p1 : Project) (db2 : PDb) (p2 : Project),
      add_project cands1 db t1 d1 o1 pm1 ps1 i1 c1 par1 = (db1, .ok p1) →
      add_project cands2 db1 t2 d2 o2 pm2 ps2 i2 c2 par2 = (db2, .ok p2) →
      p1.project_id ≠ p2.project_id) := by
  have key : ∀ (cands : List Nat) (db : PDb) (t d o pm ps : String)
      (i c : Option Nat) (par : Option Nat) (db' : PDb) (p : Project),
      add_project cands db t d o pm ps i c par = (db', .ok p) →
      (∀ r ∈ db, r.project_id ≠ p.project_id) ∧ p ∈ db' := by
    intro cands db t d o pm ps i c par db' p h
    simp only [add_project] at h
    cases hg : genProjectId cands db with
    | none => rw [hg] at h; cases h
    | some pid =>
      rw [hg] at h
      injection h with hdb hex
      injection hex with hrow
      subst hrow
      subst hdb
      constructor
      · intro r hr
        exact genProjectId_fresh cands db pid hg r hr
      · exact List.mem_append.mpr (Or.inr (List.mem_singleton.mpr rfl))
  refine ⟨key, ?_⟩
  intro cands1 cands2 db t1 d1 o1 pm1 ps1 t2 d2 o2 pm2 ps2 i1 c1 par1 i2 c2 par2
    db1 p1 db2 p2 h1 h2
  have hp1 : p1 ∈ db1 := (key cands1 db t1 d1 o1 pm1 ps1 i1 c1 par1 db1 p1 h1).2
  have hfresh := (key cands2 db1 t2 d2 o2 pm2 ps2 i2 c2 par2 db2 p2 h2).1
  exact hfresh p1 hp1

/-- Witness for C8 at a concrete input: the store is pre-seeded with
logical id 3 (live) and 4 (deleted); the candidate stream collides twice
before the free value 9 is found, and a second add with stream [9, 11]
must skip 9 and take 11. -/
theorem c8_witness :
    ((∀ r ∈ [projRow 1 3 none ("s") (""), { (projRow 2 4 none ("s") ("")) with deleted := 1 }],
        r.project_id ≠ 9) ∧
      ({ (projRow 3 9 none ("n") ("")) with id := 3 } : Project) ∈
        [projRow 1 3 none ("s") (""), { (projRow 2 4 none ("s") ("")) with deleted := 1 },
         { (projRow 3 9 none ("n") ("")) with id := 3 }]) ∧
    (9 : Nat) ≠ 11 :=
  ⟨c8_project_id_allocation.1 [3, 4, 9]
      [projRow 1 3 none ("s") (""), { (projRow 2 4 none ("s") ("")) with deleted := 1 }]
      ("n") ("") ("") ("") ("") none none none
      [projRow 1 3 none ("s") (""), { (projRow 2 4 none ("s") ("")) with deleted := 1 },
       { (projRow 3 9 none ("n") ("")) with id := 3 }]
      { (projRow 3 9 none ("n") ("")) with id := 3 } (by decide),
   c8_project_id_allocation.2 [3, 4, 9] [9, 11]
      [projRow 1 3 none ("s") (""), { (projRow 2 4 none ("s") ("")) with deleted := 1 }]
      ("n") ("") ("") ("") ("") ("m") ("") ("") ("") ("") none none none none none none
      [projRow 1 3 none ("s") (""), { (projRow 2 4 none ("s") ("")) with deleted := 1 },
       { (projRow 3 9 none ("n") ("")) with id := 3 }]
      { (projRow 3 9 none ("n") ("")) with id := 3 }
      [projRow 1 3 none ("s") (""), { (projRow 2 4 none ("s") ("")) with deleted := 1 },
       { (projRow 3 9 none ("n") ("")) with id := 3 },
       { (projRow 4 11 none ("m") ("")) with id := 4 }]
      { (projRow 4 11 none ("m") ("")) with id := 4 } (by decide) (by decide)⟩

/-! ## C6 — the read model: lists, gets and histories after deletion -/

lemma le_foldl_max (l : List Project) :
    ∀ init : Nat, init ≤ l.foldl (fun m x => max m x.version) init := by
  induction l with
  | nil => intro init; exact Nat.le_refl _
  | cons x xs ih =>
    intro init
    exact le_trans (Nat.le_max_left init x.version) (ih (max init x.version))

lemma foldl_max_le (l : List Project) :
    ∀ (init : Nat) (r : Project), r ∈ l →
      r.version ≤ l.foldl (fun m x => max m x.version) init := by
  induction l with
  | nil => intro init r hr; cases hr
  | cons x xs ih =>
    intro init r hr
    rcases List.mem_cons.mp hr with rfl | hr'
    · exact le_trans (Nat.le_max_right init r.version) (le_foldl_max xs _)
    · exact ih _ r hr'

lemma foldl_max_attained (l : List Project) :
    ∀ init : Nat, l.foldl (fun m x => max m x.version) init = init ∨
      ∃ r ∈ l, l.foldl (fun m x => max m x.version) init = r.version := by
  induction l with
  | nil => intro init; exact Or.inl rfl
  | cons x xs ih =>
    intro init
    rcases ih (max init x.version) with h | ⟨r, hr, h⟩
    · rcases Nat.le_total init x.version with hle | hle
      · refine Or.inr ⟨x, List.mem_cons_self _ _, ?_⟩
        rw [show (x :: xs).foldl (fun m y => max m y.version) init =
          xs.foldl (fun m y => max m y.version) (max init x.version) from rfl, h]
        exact Nat.max_eq_right hle
      · refine Or.inl ?_
        rw [show (x :: xs).foldl (fun m y => max m y.version) init =
          xs.foldl (fun m y => max m y.version) (max init x.version) from rfl, h]
        exact Nat.max_eq_left hle
    · exact Or.inr ⟨r, List.mem_cons_of_mem _ hr, h⟩

/-- The grouped maximum of `get_projects` is attained by some row of the
group whenever the group is non-empty. -/
lemma maxVersionOf_attained (rows : List Project) (pid : Nat)
    (hne : (rows.filter fun r => decide (r.project_id = pid)) ≠ []) :
    ∃ r ∈ rows.filter fun r => decide (r.project_id = pid),
      maxVersionOf rows pid = r.version := by
  unfold maxVersionOf
  cases hl : rows.filter fun r => decide (r.project_id = pid) with
  | nil => exact absurd hl hne
  | cons x xs =>
    have hstep : (x :: xs).foldl (fun m r => max m r.version) 0 =
        xs.foldl (fun m r => max m r.version) x.version := by
      show xs.foldl (fun m r => max m r.version) (max 0 x.version) = _
      rw [Nat.max_eq_right (Nat.zero_le _)]
    rcases foldl_max_attained xs x.version with h | ⟨r, hr, h⟩
    · exact ⟨x, List.mem_cons_self _ _, by rw [hstep, h]⟩
    · exact ⟨r, List.mem_cons_of_mem _ hr, by rw [hstep, h]⟩

/-- Membership in `get_projects`: a live row whose version is the group
maximum of the live rows with its identifier. -/
lemma mem_get_projects_iff (db : PDb) (r : Project) :
    r ∈ get_projects db ↔ (r ∈ db ∧ r.deleted = 0) ∧
      r.version = maxVersionOf (db.filter fun q => decide (q.deleted = 0)) r.project_id := by
  unfold get_projects
  constructor
  · intro h
    have h1 := List.mem_filter.mp h
    have h2 := List.mem_filter.mp h1.1
    exact ⟨⟨h2.1, by simpa using h2.2⟩, by simpa using h1.2⟩
  · rintro ⟨⟨hm, hd⟩, hv⟩
    exact List.mem_filter.mpr ⟨List.mem_filter.mpr ⟨hm, by simp [hd]⟩, by simp [hv]⟩

/-- Inversion of a successful `MilestoneController.delete`: the object's
row is removed, its direct children are dissociated, and the history is
untouched. -/
lemma mdelete_ok_inv {st : MState} {m : Milestone} {st' : MState}
    {l : List Milestone}
    (h : MilestoneController.delete st m = (st', .ok l)) :
    st' = { st with rows := ((st.rows.filter fun r => decide (¬ r.id = m.id)).map
      (MilestoneController.dissociate m)) } := by
  simp only [MilestoneController.delete] at h
  by_cases h1 : (st.rows.filter fun r => decide (r.id = m.id)) = []
  · rw [if_pos h1] at h; cases h
  · rw [if_neg h1] at h
    cases hc : MilestoneController.collect_children (st.rows.length + 1) st.rows m with
    | none => rw [hc] at h; cases h
    | some cs =>
      rw [hc] at h
      injection h with hst _
      exact hst.symm

/-- C6: after deleting an entity its identifier is gone from the listing
and `get` fails, while all snapshots remain; the listing always holds
exactly one row per live logical identifier — the live row of maximal
version — and the milestone listing's project filter returns exactly the
rows of that project. -/
theorem c6_read_model :
    (∀ (db : PDb) (pid : Nat) (db' : PDb) (l : List Project),
      delete_project db pid = (db', .ok l) →
      (∀ r ∈ get_projects db', r.project_id ≠ pid) ∧
      get_project db' pid = .error "Project not found." ∧
      db'.map snapKey = db.map snapKey) ∧
    (∀ db : PDb,
      (∀ r ∈ get_projects db, r.deleted = 0 ∧
        r.version = maxVersionOf (db.filter fun q => decide (q.deleted = 0)) r.project_id ∧
        ∀ s ∈ db, s.deleted = 0 → s.project_id = r.project_id → s.version ≤ r.version) ∧
      (∀ r ∈ db, r.deleted = 0 → ∃ r' ∈ get_projects db, r'.project_id = r.project_id)) ∧
    (∀ db : PDb, (db.map fun r => (r.project_id, r.version)).Nodup →
      ((get_projects db).map fun r => r.project_id).Nodup) ∧
    (∀ (st : MState) (pid : Nat) (r : Milestone),
      r ∈ MilestoneController.get_all st (some pid) ↔
        r ∈ st.rows ∧ r.project_id = some pid) ∧
    (∀ (st : MState) (m : Milestone) (st' : MState) (l : List Milestone),
      MilestoneController.delete st m = (st', .ok l) →
      st'.versions = st.versions ∧
      MilestoneController.get_history st' m = MilestoneController.get_history st m ∧
      MilestoneController.get_by_id st' m.id = .error "Milestone not found.") := by
  refine ⟨?_, ?_, ?_, ?_, ?_⟩
  · intro db pid db' l h
    obtain ⟨hnl, hmk⟩ := delete_project_ok_inv h
    have hlive : liveById db' pid = [] := by
      apply List.filter_eq_nil_iff.mpr
      intro r hr
      simp only [decide_eq_true_eq, not_and]
      intro hpid
      exact hnl r hr hpid
    refine ⟨?_, ?_, marked_snapKey hmk⟩
    · intro r hr heq
      have := (mem_get_projects_iff db' r).mp hr
      exact hnl r this.1.1 heq this.1.2
    · unfold get_project
      rw [hlive]
      rfl
  · intro db
    constructor
    · intro r hr
      obtain ⟨⟨hm, hd⟩, hv⟩ := (mem_get_projects_iff db r).mp hr
      refine ⟨hd, hv, ?_⟩
      intro s hs hsd hsp
      have hsl : s ∈ (db.filter fun q => decide (q.deleted = 0)).filter
          fun q => decide (q.project_id = r.project_id) := by
        refine List.mem_filter.mpr ⟨List.mem_filter.mpr ⟨hs, by simp [hsd]⟩, by simp [hsp]⟩
      calc s.version ≤ maxVersionOf (db.filter fun q => decide (q.deleted = 0)) r.project_id :=
            foldl_max_le _ 0 s hsl
        _ = r.version := hv.symm
    · intro r hr hd
      have hrl : r ∈ (db.filter fun q => decide (q.deleted = 0)).filter
          fun q => decide (q.project_id = r.project_id) :=
        List.mem_filter.mpr ⟨List.mem_filter.mpr ⟨hr, by simp [hd]⟩, by simp⟩
      have hne : ((db.filter fun q => decide (q.deleted = 0)).filter
          fun q => decide (q.project_id = r.project_id)) ≠ [] := by
        intro hc
        rw [hc] at hrl
        cases hrl
      obtain ⟨rm, hrm, hmax⟩ :=
        maxVersionOf_attained (db.filter fun q => decide (q.deleted = 0)) r.project_id hne
      have hrm1 := List.mem_filter.mp hrm
      have hrm2 := List.mem_filter.mp hrm1.1
      have hpid : rm.project_id = r.project_id := by simpa using hrm1.2
      refine ⟨rm, ?_, hpid⟩
      refine (mem_get_projects_iff db rm).mpr ⟨⟨hrm2.1, by simpa using hrm2.2⟩, ?_⟩
      rw [hpid, hmax]
  · intro db hnd
    have h1 : List.Sublist
        ((db.filter fun r => decide (r.deleted = 0)).filter fun r =>
          decide (r.version =
            maxVersionOf (db.filter fun q => decide (q.deleted = 0)) r.project_id))
        (db.filter fun r => decide (r.deleted = 0)) :=
      List.filter_sublist _
    have h2 : List.Sublist (db.filter fun r => decide (r.deleted = 0)) db :=
      List.filter_sublist _
    have hsub : List.Sublist (get_projects db) db := h1.trans h2
    have hkeys : ((get_projects db).map fun r => (r.project_id, r.version)).Nodup :=
      List.Nodup.sublist (hsub.map _) hnd
    have hkp : (get_projects db).Pairwise
        (fun a b => (a.project_id, a.version) ≠ (b.project_id, b.version)) :=
      (List.pairwise_map).mp hkeys
    have hpp : (get_projects db).Pairwise fun a b => a.project_id ≠ b.project_id := by
      refine hkp.imp_of_mem ?_
      intro a b ha hb hk heq
      apply hk
      have hva := ((mem_get_projects_iff db a).mp ha).2
      have hvb := ((mem_get_projects_iff db b).mp hb).2
      rw [Prod.mk.injEq]
      exact ⟨heq, by rw [hva, hvb, heq]⟩
    exact (List.pairwise_map).mpr hpp
  · intro st pid r
    unfold MilestoneController.get_all
    constructor
    · intro h
      have := List.mem_filter.mp h
      exact ⟨this.1, by simpa using this.2⟩
    · rintro ⟨hm, hp⟩
      exact List.mem_filter.mpr ⟨hm, by simp [hp]⟩
  · intro st m st' l h
    have hst' := mdelete_ok_inv h
    subst hst'
    refine ⟨rfl, rfl, ?_⟩
    have hfil : (((st.rows.filter fun r => decide (¬ r.id = m.id)).map
        (MilestoneController.dissociate m)).filter
        fun r => decide (r.id = m.id)) = [] := by
      apply List.filter_eq_nil_iff.mpr
      intro r hr
      obtain ⟨r0, hr0, rfl⟩ := List.mem_map.mp hr
      have h0 := (List.mem_filter.mp hr0).2
      simp only [decide_eq_true_eq] at h0 ⊢
      rw [dissociate_id]
      exact h0
    unfold MilestoneController.get_by_id
    rw [hfil]

/-- Witness for C6: the concrete tree, deleted at its root, and a
duplicate-free two-row store. -/
theorem c6_witness :
    ((∀ r ∈ get_projects
        [{ (projRow 1 10 none ("p") ("")) with deleted := 1 },
         { (projRow 2 20 (some 10) ("c") ("")) with deleted := 1 },
         { (projRow 3 30 (some 20) ("g") ("")) with deleted := 1 },
         projRow 4 40 none ("u") ("")], r.project_id ≠ 10) ∧
      get_project
        [{ (projRow 1 10 none ("p") ("")) with deleted := 1 },
         { (projRow 2 20 (some 10) ("c") ("")) with deleted := 1 },
         { (projRow 3 30 (some 20) ("g") ("")) with deleted := 1 },
         projRow 4 40 none ("u") ("")] 10 = .error "Project not found." ∧
      [{ (projRow 1 10 none ("p") ("")) with deleted := 1 },
       { (projRow 2 20 (some 10) ("c") ("")) with deleted := 1 },
       { (projRow 3 30 (some 20) ("g") ("")) with deleted := 1 },
       projRow 4 40 none ("u") ("")].map snapKey =
        (projectTree ("p") ("c") ("g") ("u") ("") ("") ("") ("")).map snapKey) ∧
    ((get_projects [projRow 1 10 none ("p") (""), projRow 2 20 (some 10) ("c") ("")]).map
      fun r => r.project_id).Nodup :=
  ⟨(c6_read_model.1 (projectTree ("p") ("c") ("g") ("u") ("") ("") ("") ("")) 10
      [{ (projRow 1 10 none ("p") ("")) with deleted := 1 },
       { (projRow 2 20 (some 10) ("c") ("")) with deleted := 1 },
       { (projRow 3 30 (some 20) ("g") ("")) with deleted := 1 },
       projRow 4 40 none ("u") ("")]
      [{ (projRow 1 10 none ("p") ("")) with deleted := 1 },
       { (projRow 2 20 (some 10) ("c") ("")) with deleted := 1 },
       { (projRow 3 30 (some 20) ("g") ("")) with deleted := 1 }] (by decide)),
   c6_read_model.2.2.1 [projRow 1 10 none ("p") (""), projRow 2 20 (some 10) ("c") ("")]
      (by decide)⟩

end Plog
